/-
Verification of the cv_analyzer schema-driven extraction pipeline.

This file gives a shallow embedding, in Lean 4, of the pipeline's core:

* `schema/yaml_loader.py`  — declarative schema loading and validation,
  conversion helpers, `get_variable_names`;
* `schema/validator.py`    — the coercion pass `_preprocess_data` and the
  (default, pydantic-backed) `validate_extraction`;
* `llm_client/prompt_templates.py` — `PromptConfig.format_schema_for_prompt`;
* `llm_client/openai_client.py`    — `extract_profile` and
  `_retry_with_correction`, with the model provider abstracted as an
  environment of responses;
* `app.py` — `calculate_derived_fields` and `process_single_cv` /
  the batch result-collection loop.

Python strings are embedded as Lean `String`; Python dicts that carry
extraction records are embedded as ordered association lists (insertion
order, unique keys, first-match lookup — matching CPython's dict
semantics for the operations the code performs).  Machine-level numerics
do not occur: Python integers are arbitrary precision (`Int`), and the
only floating-point values the claims touch are configuration constants,
embedded as `ℚ`.
-/

import Mathlib

namespace CVA

/-! ## Python string helpers

Small executable models of the Python string operations the source uses:
`str.lower`, `str.strip`, `re.search(r"\d+", s)`, `float(s)` and
`"\n".join` / `str.split("\n")`. -/

/-- Model of Python `str.lower` on one character: ASCII letters plus the
accented uppercase vowels and letters that appear in the Spanish token
vocabulary of this code base.  (Python lowercases all of Unicode; the
tokens this pipeline compares against only need these characters.) -/
def py_lower_char (c : Char) : Char :=
  if 'A' ≤ c ∧ c ≤ 'Z' then Char.ofNat (c.toNat + 32)
  else if c = 'Á' then 'á'
  else if c = 'É' then 'é'
  else if c = 'Í' then 'í'
  else if c = 'Ó' then 'ó'
  else if c = 'Ú' then 'ú'
  else if c = 'Ñ' then 'ñ'
  else if c = 'Ü' then 'ü'
  else c

/-- Model of Python `str.lower`. -/
def py_lower (s : String) : String := ⟨s.data.map py_lower_char⟩

/-- ASCII whitespace, as Python `str.strip` removes it. -/
def is_py_space (c : Char) : Bool :=
  c = ' ' || c = '\t' || c = '\n' || c = '\r' || c = '\x0b' || c = '\x0c'

/-- Model of Python `str.strip` (ASCII whitespace; Python also strips
other Unicode whitespace, which never occurs in the compared tokens). -/
def py_strip (s : String) : String :=
  ⟨((s.data.dropWhile is_py_space).reverse.dropWhile is_py_space).reverse⟩

/-- Decimal digits of a character run, as a natural number. -/
def digits_to_nat (cs : List Char) : Nat :=
  cs.foldl (fun acc c => acc * 10 + (c.toNat - '0'.toNat)) 0

/-- Model of `re.search(r"\d+", s)`: the first maximal run of decimal
digits in `s`, if any.  (Python's `\d` also matches non-ASCII Unicode
digits; the values this pipeline sees are ASCII.) -/
def first_digit_run : List Char → Option (List Char)
  | [] => none
  | c :: cs =>
    if c.isDigit then some (c :: cs.takeWhile Char.isDigit)
    else first_digit_run cs

/-- `int(match.group())` applied to the first digit run of `s`, when a
digit run exists: always a natural number (the regex `\d+` has no sign). -/
def first_number_in_string (s : String) : Option Nat :=
  (first_digit_run s.data).map digits_to_nat

/-- Digit span helper for the float parser. -/
def span_digits (cs : List Char) : List Char × List Char :=
  (cs.takeWhile Char.isDigit, cs.dropWhile Char.isDigit)

/-- Exponent part of a Python float literal: `(e|E)[+-]?digits`. -/
def parse_exponent (cs : List Char) : Option Int :=
  match cs with
  | [] => some 0
  | c :: rest =>
    if c = 'e' ∨ c = 'E' then
      match rest with
      | '+' :: ds => if ds ≠ [] ∧ ds.all Char.isDigit then some (digits_to_nat ds) else none
      | '-' :: ds => if ds ≠ [] ∧ ds.all Char.isDigit then some (-(digits_to_nat ds : Int)) else none
      | ds => if ds ≠ [] ∧ ds.all Char.isDigit then some (digits_to_nat ds) else none
    else none

/-- Mantissa of a Python float literal: `digits [. digits] | . digits`,
with at least one digit overall; returns the value and the rest. -/
def parse_mantissa (cs : List Char) : Option (ℚ × List Char) :=
  let (d1, rest1) := span_digits cs
  match rest1 with
  | '.' :: rest2 =>
    let (d2, rest3) := span_digits rest2
    if d1 = [] ∧ d2 = [] then none
    else some ((digits_to_nat d1 : ℚ) + (digits_to_nat d2 : ℚ) / (10 : ℚ) ^ d2.length, rest3)
  | _ =>
    if d1 = [] then none else some ((digits_to_nat d1 : ℚ), rest1)

/-- Model of Python `float(s)` for finite decimal literals: optional
surrounding whitespace, optional sign, mantissa, optional exponent.
(`inf`/`nan`/underscore separators are not modelled; none of the claims
depend on them, and a string in those forms is treated as unparseable.)
Python floats are binary; the claims only use `float(s)` through its
success/failure and exact decimal values, which `ℚ` represents. -/
def py_float_of_string (s : String) : Option ℚ :=
  let cs := (py_strip s).data
  let signed : Bool × List Char :=
    match cs with
    | '-' :: rest => (true, rest)
    | '+' :: rest => (false, rest)
    | _ => (false, cs)
  match parse_mantissa signed.2 with
  | none => none
  | some (m, rest) =>
    match parse_exponent rest with
    | none => none
    | some e =>
      let v := m * (10 : ℚ) ^ e
      some (if signed.1 then -v else v)

/-- Split a character list at newline characters (model of Python
`str.split("\n")`): always returns at least one (possibly empty) piece. -/
def split_on_nl : List Char → List (List Char)
  | [] => [[]]
  | c :: cs =>
    match split_on_nl cs with
    | [] => [[c]]      -- unreachable: split_on_nl never returns []
    | l :: ls => if c = '\n' then [] :: l :: ls else (c :: l) :: ls

/-- Model of Python `"\n".join(lines)`. -/
def py_join_nl : List String → String
  | [] => ""
  | [s] => s
  | s :: rest => s ++ "\n" ++ py_join_nl rest

/-- Model of Python `text.split("\n")`. -/
def py_split_nl (s : String) : List String :=
  (split_on_nl s.data).map fun l => ⟨l⟩

theorem split_on_nl_ne_nil (cs : List Char) : split_on_nl cs ≠ [] := by
  cases cs with
  | nil => simp [split_on_nl]
  | cons c cs =>
    simp only [split_on_nl]
    cases h : split_on_nl cs with
    | nil => simp
    | cons l ls =>
      by_cases hc : c = '\n' <;> simp [hc]

theorem split_on_nl_append (a b : List Char) :
    split_on_nl (a ++ '\n' :: b) = split_on_nl a ++ split_on_nl b := by
  induction a with
  | nil =>
    simp only [List.nil_append, split_on_nl]
    cases h : split_on_nl b with
    | nil => exact absurd h (split_on_nl_ne_nil b)
    | cons l ls => simp
  | cons c a ih =>
    simp only [List.cons_append, split_on_nl, List.append_eq]
    rw [ih]
    cases h : split_on_nl a with
    | nil => exact absurd h (split_on_nl_ne_nil a)
    | cons l ls =>
      by_cases hc : c = '\n' <;> simp [hc]

theorem split_on_nl_no_nl (a : List Char) (h : '\n' ∉ a) :
    split_on_nl a = [a] := by
  induction a with
  | nil => rfl
  | cons c a ih =>
    simp only [List.mem_cons, not_or] at h
    have hc : c ≠ '\n' := fun hcc => h.1 hcc.symm
    simp [split_on_nl, ih h.2, hc]

theorem py_split_nl_join (ss : List String) (hne : ss ≠ []) :
    py_split_nl (py_join_nl ss) =
      (ss.map fun s => (split_on_nl s.data).map fun l => (⟨l⟩ : String)).flatten := by
  induction ss with
  | nil => exact absurd rfl hne
  | cons s rest ih =>
    cases rest with
    | nil => simp [py_join_nl, py_split_nl]
    | cons t rest' =>
      have hdata : (s ++ "\n" ++ py_join_nl (t :: rest')).data
          = s.data ++ '\n' :: (py_join_nl (t :: rest')).data := by
        simp [String.data_append]
      simp only [py_join_nl, py_split_nl] at *
      rw [hdata, split_on_nl_append, List.map_append, List.map_cons, List.flatten_cons]
      rw [ih (by simp)]

/-! ## JSON-like values and record dictionaries

`Value` embeds the values that flow through the pipeline: what
`json.loads` can produce from the model's response, plus what the app
itself stores in a result row.  `Record` embeds a Python `dict` whose
keys are strings, as an insertion-ordered association list. -/

/-- A JSON-like Python value. -/
inductive Value where
  | null
  | bool (b : Bool)
  | int (n : Int)
  | float (q : ℚ)
  | str (s : String)
  | list (vs : List Value)
  | dict (kvs : List (String × Value))
deriving Repr

/-- A Python `dict` with string keys, in insertion order. -/
abbrev Record := List (String × Value)

/-- Dictionary lookup, `d[k]` / `d.get(k)`: first matching key.  (CPython
dicts hold each key once; the embeddings below preserve that.) -/
def rget : Record → String → Option Value
  | [], _ => none
  | (k', v) :: rest, k => if k' = k then some v else rget rest k

/-- `d.get(k, default)`. -/
def rget_default (r : Record) (k : String) (d : Value) : Value :=
  (rget r k).getD d

/-- `k in d`. -/
def rhas (r : Record) (k : String) : Bool :=
  (rget r k).isSome

/-- `d[k] = v`: replace in place if the key exists (a CPython dict keeps
the key's position), else append. -/
def rset : Record → String → Value → Record
  | [], k, v => [(k, v)]
  | (k', v') :: rest, k, v =>
    if k' = k then (k', v) :: rest else (k', v') :: rset rest k v

/-- `d.update(other)`: set every key of `other` in order. -/
def rupdate (r : Record) (other : Record) : Record :=
  other.foldl (fun acc p => rset acc p.1 p.2) r

/-- The keys of a record, in order. -/
def rkeys (r : Record) : List String := r.map Prod.fst

theorem rget_rset_same (r : Record) (k : String) (v : Value) :
    rget (rset r k v) k = some v := by
  induction r with
  | nil => simp [rset, rget]
  | cons p rest ih =>
    by_cases h : p.1 = k <;> simp [rset, rget, h, ih]

theorem rget_rset_other (r : Record) (k k' : String) (v : Value) (h : k ≠ k') :
    rget (rset r k v) k' = rget r k' := by
  induction r with
  | nil => simp [rset, rget, h]
  | cons p rest ih =>
    by_cases hp : p.1 = k
    · simp [rset, rget, hp, h]
    · by_cases hp' : p.1 = k' <;> simp [rset, rget, hp, hp', ih, Ne.symm h]

theorem rkeys_rset_mem (r : Record) (k : String) (v : Value) (h : rhas r k = true) :
    rkeys (rset r k v) = rkeys r := by
  induction r with
  | nil => simp [rhas, rget] at h
  | cons p rest ih =>
    by_cases hp : p.1 = k
    · simp [rset, hp, rkeys]
    · have h' : rhas rest k = true := by simpa [rhas, rget, hp] using h
      have hrec := ih h'
      simp only [rkeys] at hrec
      simp [rset, hp, rkeys, hrec]

theorem rkeys_rset_new (r : Record) (k : String) (v : Value) (h : rhas r k = false) :
    rkeys (rset r k v) = rkeys r ++ [k] := by
  induction r with
  | nil => simp [rset, rkeys]
  | cons p rest ih =>
    by_cases hp : p.1 = k
    · simp [rhas, rget, hp] at h
    · have h' : rhas rest k = false := by simpa [rhas, rget, hp] using h
      have hrec := ih h'
      simp only [rkeys] at hrec
      simp [rset, hp, rkeys, hrec]

/-! ## Compiled schema model (`schema/yaml_loader.py` output shape)

A compiled schema, as produced by `load_yaml_schema` and consumed by
`validator.py` and `prompt_templates.py`: an ordered list of variables,
each with a `name`, a `type` drawn from the fixed valid set, and the
optional kind-specific attributes. -/

/-- The valid `type` values of a schema variable. -/
inductive VarType where
  | string | integer | float | boolean | categorical
  | list_string | list_integer | list_object | object
deriving Repr, DecidableEq

/-- A `properties` entry of a `list[object]` variable: either a primitive
type name (string) or an enumerated list of allowed string values. -/
inductive PropKind where
  | prim (type_name : String)
  | enum (vals : List String)
deriving Repr

/-- One entry of the compiled schema's `variables` list. -/
structure Variable where
  name : String
  type : VarType
  required : Bool := false
  min : Option Int := none
  max : Option Int := none
  format : Option String := none
  allowed_values : List String := []
  properties : List (String × PropKind) := []

/-- A compiled schema: `version` tag plus the ordered `variables` list
(the field is called `vars` because `variables` is a reserved token in
Lean). -/
structure Schema where
  version : Int
  vars : List Variable

/-- The field→type table `{var["name"]: var["type"]}` built by
`_preprocess_data`: a Python dict comprehension, so a duplicated name
(impossible after `load_yaml_schema`) would keep the last entry. -/
def type_map_find (schema : Schema) (k : String) : Option VarType :=
  schema.vars.foldl (fun acc v => if v.name = k then some v.type else acc) none

/-! ## `_preprocess_data` (schema/validator.py, the coercion pass) -/

/-- Truthy string tokens of the boolean coercion in `_preprocess_data`. -/
def preprocess_truthy : List String := ["true", "yes", "sí", "si", "1", "verdadero"]

/-- Falsy string tokens of the boolean coercion in `_preprocess_data`. -/
def preprocess_falsy : List String := ["false", "no", "0", "falso"]

/-- The body of `_preprocess_data`'s loop for one key: coerce a string
value toward the expected integer/float/boolean type, `None` on failure;
leave observed non-string values (and keys without a declared type, and
`None` values) unchanged.  Total by construction: the source catches the
conversion errors (`int`, `float`), and the remaining operations cannot
raise. -/
def preprocess_entry (expected : Option VarType) (v : Value) : Value :=
  match expected with
  | none => v
  | some t =>
    match v with
    | .null => v
    | .str s =>
      match t with
      | .integer =>
        match first_number_in_string s with
        | some n => .int n
        | none => .null
      | .float =>
        match py_float_of_string s with
        | some q => .float q
        | none => .null
      | .boolean =>
        let value_lower := py_strip (py_lower s)
        if preprocess_truthy.contains value_lower then .bool true
        else if preprocess_falsy.contains value_lower then .bool false
        else .null
      | _ => v
    | _ => v

/-- `_preprocess_data(data, schema)`: values of keys with a declared
integer/float/boolean type are coerced; everything else is copied. -/
def preprocess_data (data : Record) (schema : Schema) : Record :=
  data.map fun p => (p.1, preprocess_entry (type_map_find schema p.1) p.2)

/-! ## Dynamic pydantic model (`create_pydantic_model` + validation)

`_validate_with_pydantic` builds a pydantic v2 model whose fields are
exactly the schema variables, with `Optional[...] = None` for
non-required fields, and validates the (preprocessed) data against it.
The `ConfigDict` passed by `create_pydantic_model` does not set `extra`,
so pydantic's default `extra='ignore'` applies: undeclared keys are
dropped, not rejected.  The per-type validators below model pydantic
v2's lax ("smart") coercions for the types `_get_pydantic_field`
produces; `str_strip_whitespace=True` strips validated strings. -/

/-- Crude model of the `email-validator` check behind pydantic's
`EmailStr` (used when a string variable declares `format: email`):
one `@` with a nonempty local part and a dotted, nonempty domain.  No
claim depends on its exact acceptance set. -/
def is_email_like (s : String) : Bool :=
  match s.splitOn "@" with
  | [local_part, domain] =>
    local_part ≠ "" && domain ≠ "" && (domain.splitOn ".").length ≥ 2
      && (domain.splitOn ".").all (· ≠ "")
  | _ => false

/-- pydantic lax `str → int`: optional sign and digits (after stripping). -/
def py_int_lax (s : String) : Option Int :=
  let cs := (py_strip s).data
  match cs with
  | '-' :: ds => if ds ≠ [] ∧ ds.all Char.isDigit then some (-(digits_to_nat ds : Int)) else none
  | '+' :: ds => if ds ≠ [] ∧ ds.all Char.isDigit then some (digits_to_nat ds) else none
  | ds => if ds ≠ [] ∧ ds.all Char.isDigit then some (digits_to_nat ds) else none

/-- pydantic bound check from `Field(ge=min, le=max)`. -/
def check_int_bounds (mn mx : Option Int) (n : Int) : Except String Value :=
  match mn with
  | some m =>
    if n < m then .error s!"Input should be greater than or equal to {m}"
    else match mx with
      | some mmax => if mmax < n then .error s!"Input should be less than or equal to {mmax}" else .ok (.int n)
      | none => .ok (.int n)
  | none =>
    match mx with
    | some mmax => if mmax < n then .error s!"Input should be less than or equal to {mmax}" else .ok (.int n)
    | none => .ok (.int n)

/-- pydantic lax validation of an `int` field (bool is rejected for int
in pydantic v2; exact-valued floats and integer strings are accepted). -/
def validate_int (mn mx : Option Int) (v : Value) : Except String Value :=
  match v with
  | .int n => check_int_bounds mn mx n
  | .float q => if q.den = 1 then check_int_bounds mn mx q.num else .error "Input should be a valid integer"
  | .str s =>
    match py_int_lax s with
    | some n => check_int_bounds mn mx n
    | none => .error "Input should be a valid integer"
  | _ => .error "Input should be a valid integer"

/-- pydantic lax validation of a `float` field. -/
def validate_float (v : Value) : Except String Value :=
  match v with
  | .float _ => .ok v
  | .int n => .ok (.float n)
  | .str s =>
    match py_float_of_string s with
    | some q => .ok (.float q)
    | none => .error "Input should be a valid number"
  | _ => .error "Input should be a valid number"

/-- pydantic lax validation of a `bool` field (fixed string vocabulary,
0/1 numerics). -/
def validate_bool (v : Value) : Except String Value :=
  match v with
  | .bool _ => .ok v
  | .int n => if n = 0 then .ok (.bool false) else if n = 1 then .ok (.bool true)
              else .error "Input should be a valid boolean"
  | .float q => if q = 0 then .ok (.bool false) else if q = 1 then .ok (.bool true)
                else .error "Input should be a valid boolean"
  | .str s =>
    let l := py_strip (py_lower s)
    if ["true", "t", "yes", "y", "on", "1"].contains l then .ok (.bool true)
    else if ["false", "f", "no", "n", "off", "0"].contains l then .ok (.bool false)
    else .error "Input should be a valid boolean"
  | _ => .error "Input should be a valid boolean"

/-- pydantic validation of a plain or email string field. -/
def validate_string (fmt : Option String) (v : Value) : Except String Value :=
  match v with
  | .str s =>
    let s' := py_strip s
    match fmt with
    | some f =>
      if f = "email" then
        if is_email_like s' then .ok (.str s')
        else .error "value is not a valid email address"
      else .ok (.str s')
    | none => .ok (.str s')
  | _ => .error "Input should be a valid string"

/-- pydantic validation of a `Literal[allowed_values]` field. -/
def validate_categorical (allowed : List String) (v : Value) : Except String Value :=
  match v with
  | .str s => if allowed.contains s then .ok v else .error "Input should be one of the allowed values"
  | _ => .error "Input should be one of the allowed values"

/-- `_type_string_to_python`: primitive property validation for nested
`list[object]` items (unknown type names default to `str`). -/
def validate_prim (type_name : String) (v : Value) : Except String Value :=
  if type_name = "integer" then validate_int none none v
  else if type_name = "float" then validate_float v
  else if type_name = "boolean" then validate_bool v
  else validate_string none v

/-- Validation of one nested `list[object]` item against the declared
`properties` (each property is required — `create_model` gives them no
default; nested extra keys are ignored, pydantic's default). -/
def validate_obj_item (props : List (String × PropKind)) (v : Value) : Except String Value :=
  match v with
  | .dict kvs =>
    let step : Except String Record → String × PropKind → Except String Record :=
      fun acc p =>
        match acc with
        | .error e => .error e
        | .ok out =>
          match rget kvs p.1 with
          | none => .error s!"{p.1}: Field required"
          | some pv =>
            match (match p.2 with
                   | .prim t => validate_prim t pv
                   | .enum vals => validate_categorical vals pv) with
            | .ok pv' => .ok (out ++ [(p.1, pv')])
            | .error e => .error s!"{p.1}: {e}"
    (props.foldl step (.ok [])).map .dict
  | _ => .error "Input should be a valid dictionary"

/-- Elementwise validation of a list field. -/
def validate_items (item : Value → Except String Value) (vs : List Value) : Except String Value :=
  let step : Except String (List Value) → Value → Except String (List Value) :=
    fun acc v =>
      match acc with
      | .error e => .error e
      | .ok out =>
        match item v with
        | .ok v' => .ok (out ++ [v'])
        | .error e => .error e
  (vs.foldl step (.ok [])).map .list

/-- The pydantic validator of one schema variable's declared type
(`_get_pydantic_field`). -/
def core_validate (var : Variable) (v : Value) : Except String Value :=
  match var.type with
  | .string => validate_string var.format v
  | .integer => validate_int var.min var.max v
  | .float => validate_float v
  | .boolean => validate_bool v
  | .categorical => validate_categorical var.allowed_values v
  | .list_string =>
    match v with
    | .list vs => validate_items (validate_string none) vs
    | _ => .error "Input should be a valid list"
  | .list_integer =>
    match v with
    | .list vs => validate_items (validate_int none none) vs
    | _ => .error "Input should be a valid list"
  | .list_object =>
    match v with
    | .list vs => validate_items (validate_obj_item var.properties) vs
    | _ => .error "Input should be a valid list"
  | .object =>
    match v with
    | .dict _ => .ok v
    | _ => .error "Input should be a valid dictionary"

/-- Validation of one model field from the (possibly absent) value of the
corresponding key: required fields must be present and of the declared
type; non-required fields are `Optional[...] = None`. -/
def field_validate (var : Variable) : Option Value → Except String Value
  | none => if var.required then .error "Field required" else .ok .null
  | some .null => if var.required then core_validate var .null else .ok .null
  | some v => core_validate var v

/-- Validation of every declared field, in declaration order, collecting
the validated values and every field error (pydantic's `ValidationError`
reports all of them). -/
def run_fields (vars : List Variable) (d : Record) : Record × List String :=
  match vars with
  | [] => ([], [])
  | var :: rest =>
    let tail := run_fields rest d
    match field_validate var (rget d var.name) with
    | .ok val => ((var.name, val) :: tail.1, tail.2)
    | .error e => (tail.1, s!"{var.name}: {e}" :: tail.2)

/-- `_format_pydantic_errors`. -/
def format_pydantic_errors (errs : List String) : String :=
  "Errores de validación:\n" ++ py_join_nl (errs.map fun e => s!"  • {e}")

/-- `_validate_with_pydantic(data, schema)`: preprocess, then validate
against the dynamic model.  On success the output is `model_dump()`:
exactly the declared fields, in declaration order; undeclared keys of
`data` are ignored (`extra='ignore'`, pydantic's default — the
`ConfigDict` in `create_pydantic_model` does not override it). -/
def validate_with_pydantic (data : Record) (schema : Schema) :
    Bool × Option Record × Option String :=
  let d := preprocess_data data schema
  match run_fields schema.vars d with
  | (fields, []) => (true, some fields, none)
  | (_, errs) => (false, none, some (format_pydantic_errors errs))

/-- `validate_extraction(data, schema)` with the default
`use_pydantic=True` — the path every caller in the repository uses.
(The `use_pydantic=False` branch delegates to `jsonschema` with
`additionalProperties: False` and is not modelled here.) -/
def validate_extraction (data : Record) (schema : Schema) :
    Bool × Option Record × Option String :=
  validate_with_pydantic data schema

/-! ## Raw (pre-validation) schema values (`schema/yaml_loader.py`)

`load_yaml_schema` receives whatever `yaml.safe_load` produced and
validates its shape, so its embedding works on a raw value type.
Numeric YAML scalars relevant to the claims are integers (`Int`); the
`isinstance(x, (int, float))` checks are modelled by `is_number`, which
— like Python, where `bool` is a subclass of `int` — also accepts
booleans.  Dictionary keys are strings (YAML mappings in this schema
format use string keys). -/

/-- A raw YAML value. -/
inductive YamlVal where
  | null
  | bool (b : Bool)
  | int (n : Int)
  | str (s : String)
  | list (vs : List YamlVal)
  | dict (kvs : List (String × YamlVal))
deriving Repr

mutual

/-- Structural equality of raw YAML values (Python `==` on the parsed
scalars and containers). -/
def yaml_beq : YamlVal → YamlVal → Bool
  | .null, .null => true
  | .bool a, .bool b => a == b
  | .int a, .int b => a == b
  | .str a, .str b => a == b
  | .list xs, .list ys => yaml_beq_list xs ys
  | .dict xs, .dict ys => yaml_beq_dict xs ys
  | _, _ => false

/-- Elementwise equality of YAML lists. -/
def yaml_beq_list : List YamlVal → List YamlVal → Bool
  | [], [] => true
  | x :: xs, y :: ys => yaml_beq x y && yaml_beq_list xs ys
  | _, _ => false

/-- Itemwise equality of YAML mappings. -/
def yaml_beq_dict : List (String × YamlVal) → List (String × YamlVal) → Bool
  | [], [] => true
  | (k1, v1) :: xs, (k2, v2) :: ys => k1 == k2 && yaml_beq v1 v2 && yaml_beq_dict xs ys
  | _, _ => false

end

instance : BEq YamlVal := ⟨yaml_beq⟩

/-- Lookup in a raw YAML mapping. -/
def ylookup : List (String × YamlVal) → String → Option YamlVal
  | [], _ => none
  | (k', v) :: rest, k => if k' = k then some v else ylookup rest k

/-- `isinstance(x, (int, float))` — true for Python ints, floats and
(because `bool` subclasses `int`) booleans. -/
def is_number : YamlVal → Bool
  | .int _ => true
  | .bool _ => true
  | _ => false

/-- Python truthiness of a raw value (`if required:`). -/
def py_truthy : YamlVal → Bool
  | .null => false
  | .bool b => b
  | .int n => n ≠ 0
  | .str s => s ≠ ""
  | .list vs => !vs.isEmpty
  | .dict kvs => !kvs.isEmpty

mutual

/-- Python `repr` of a raw value (used when formatting containers into
f-strings; approximate for exotic nesting, which no claim exercises). -/
def py_repr : YamlVal → String
  | .null => "None"
  | .bool true => "True"
  | .bool false => "False"
  | .int n => toString n
  | .str s => "'" ++ s ++ "'"
  | .list vs => "[" ++ py_repr_list vs ++ "]"
  | .dict kvs => "\x7b" ++ py_repr_dict kvs ++ "\x7d"

/-- `repr` of list elements, comma separated. -/
def py_repr_list : List YamlVal → String
  | [] => ""
  | [v] => py_repr v
  | v :: rest => py_repr v ++ ", " ++ py_repr_list rest

/-- `repr` of dict items, comma separated. -/
def py_repr_dict : List (String × YamlVal) → String
  | [] => ""
  | [(k, v)] => "'" ++ k ++ "': " ++ py_repr v
  | (k, v) :: rest => "'" ++ k ++ "': " ++ py_repr v ++ ", " ++ py_repr_dict rest

end

/-- Python `str` of a raw value, as f-string interpolation applies it. -/
def py_str : YamlVal → String
  | .null => "None"
  | .bool true => "True"
  | .bool false => "False"
  | .int n => toString n
  | .str s => s
  | .list vs => py_repr (.list vs)
  | .dict kvs => py_repr (.dict kvs)

/-- The `valid_types` list of `_validate_variable`. -/
def valid_types : List String :=
  ["string", "integer", "float", "boolean", "categorical",
   "list[string]", "list[integer]", "list[object]", "object"]

/-- `_validate_variable(var, index, seen_names)`: the per-variable checks
of `load_yaml_schema`, in source order — shape, required keys, duplicate
name, valid type, kind-specific constraints (`categorical` needs a list
`allowed_values`; `integer` bounds must be numeric — they are never
compared to each other; `list[object]` needs a dict `properties`), and
`required` must be boolean.  Returns the grown `seen_names`. -/
def validate_variable (var : YamlVal) (index : Nat) (seen : List YamlVal) :
    Except String (List YamlVal) :=
  match var with
  | .dict kvs =>
    match ylookup kvs "name" with
    | none => .error s!"Variable {index} debe tener un campo 'name'"
    | some name =>
      match ylookup kvs "type" with
      | none =>
        .error (s!"Variable {index} (" ++ py_str name ++ ") debe tener un campo 'type'")
      | some type_val =>
        if seen.contains name then
          .error ("Nombre de variable duplicado: " ++ py_str name)
        else
          let seen' := name :: seen
          let type_ok : Bool :=
            match type_val with
            | .str t => valid_types.contains t
            | _ => false
          if ¬type_ok then
            .error ("Tipo inválido para variable '" ++ py_str name ++ "': " ++ py_str type_val
              ++ ". Tipos válidos: " ++ String.intercalate ", " valid_types)
          else
            let t := match type_val with | .str t => t | _ => ""
            let av := ylookup kvs "allowed_values"
            let av_is_list : Bool := match av with | some (.list _) => true | _ => false
            let min_bad : Bool := match ylookup kvs "min" with
                                  | some m => !is_number m | none => false
            let max_bad : Bool := match ylookup kvs "max" with
                                  | some m => !is_number m | none => false
            let props := ylookup kvs "properties"
            let props_is_dict : Bool := match props with | some (.dict _) => true | _ => false
            let req_bad : Bool := match ylookup kvs "required" with
                                  | some (.bool _) => false | some _ => true | none => false
            if t == "categorical" && av.isNone then
              .error ("Variable categorical '" ++ py_str name ++ "' debe tener 'allowed_values'")
            else if t == "categorical" && !av_is_list then
              .error ("'allowed_values' de '" ++ py_str name ++ "' debe ser una lista")
            else if t == "integer" && min_bad then
              .error ("'min' de '" ++ py_str name ++ "' debe ser un número")
            else if t == "integer" && max_bad then
              .error ("'max' de '" ++ py_str name ++ "' debe ser un número")
            else if t == "list[object]" && props.isNone then
              .error ("Variable list[object] '" ++ py_str name ++ "' debe tener 'properties'")
            else if t == "list[object]" && !props_is_dict then
              .error ("'properties' de '" ++ py_str name ++ "' debe ser un diccionario")
            else if req_bad then
              .error ("'required' de '" ++ py_str name ++ "' debe ser booleano")
            else
              .ok seen'
  | _ => .error s!"Variable {index} debe ser un diccionario"

/-- The indexed loop over `schema["variables"]` in `load_yaml_schema`. -/
def validate_vars : List YamlVal → Nat → List YamlVal → Except String Unit
  | [], _, _ => .ok ()
  | var :: rest, i, seen =>
    match validate_variable var i seen with
    | .ok seen' => validate_vars rest (i + 1) seen'
    | .error e => .error e

/-- `load_yaml_schema` after YAML parsing: structural checks, then each
variable; returns the schema unchanged on success, never a partially
valid schema. -/
def load_yaml_schema (schema : YamlVal) : Except String YamlVal :=
  match schema with
  | .dict kvs =>
    if (ylookup kvs "version").isNone then
      .error "El esquema debe incluir un campo 'version'"
    else
      match ylookup kvs "variables" with
      | none => .error "El esquema debe incluir un campo 'variables'"
      | some (.list vars) =>
        match validate_vars vars 0 [] with
        | .ok _ => .ok (.dict kvs)
        | .error e => .error e
      | some _ => .error "El campo 'variables' debe ser una lista"
  | _ => .error "El esquema debe ser un diccionario"

/-- One step of the `get_variable_names` comprehension: append
`var["name"]` (raising, as `Except`, on a malformed variable). -/
def gvn_step (acc : Except String (List YamlVal)) (var : YamlVal) :
    Except String (List YamlVal) :=
  match acc with
  | .error e => .error e
  | .ok out =>
    match var with
    | .dict vkvs =>
      match ylookup vkvs "name" with
      | some n => .ok (out ++ [n])
      | none => .error "KeyError: 'name'"
    | _ => .error "TypeError: variable is not a dict"

/-- `get_variable_names(schema)`: `[var["name"] for var in
schema.get("variables", [])]`.  The indexing raises on a malformed
schema; embedded as `Except`. -/
def get_variable_names (schema : YamlVal) : Except String (List YamlVal) :=
  match schema with
  | .dict kvs =>
    match (ylookup kvs "variables").getD (.list []) with
    | .list vars => vars.foldl gvn_step (.ok [])
    | _ => .error "TypeError: 'variables' is not a list"
  | _ => .error "AttributeError: schema is not a dict"

/-! ## `PromptConfig.format_schema_for_prompt` (llm_client/prompt_templates.py)

The method reads nothing from the `PromptConfig` instance, so it is
embedded as a function of the schema alone. -/

/-- The type-description part of one rendered schema line (the if/elif
chain over `var_type` in `format_schema_for_prompt`; a non-string
`var_type` fails every comparison in Python and lands in the final
f-string branch). -/
def field_type_desc (kvs : List (String × YamlVal)) (type_val : YamlVal) :
    Except String String :=
  match type_val with
  | .str t =>
    if t = "string" then .ok "\"string\""
    else if t = "boolean" then .ok "true o false"
    else if t = "integer" then
      let range_info :=
        (match ylookup kvs "min" with
         | some m => ["min=" ++ py_str m]
         | none => []) ++
        (match ylookup kvs "max" with
         | some m => ["max=" ++ py_str m]
         | none => [])
      if range_info = [] then .ok "number (entero)"
      else .ok ("number (entero)" ++ " (" ++ String.intercalate ", " range_info ++ ")")
    else if t = "categorical" then
      match ylookup kvs "allowed_values" with
      | some (.list vs) =>
        .ok ("uno de: [" ++
          String.intercalate ", " (vs.map fun v => "\"" ++ py_str v ++ "\"") ++ "]")
      | some _ => .error "TypeError: 'allowed_values' is not iterable"
      | none => .error "KeyError: 'allowed_values'"
    else if t = "list[string]" then .ok "[\"string\", ...]"
    else if t = "list[object]" then .ok "[\x7b...\x7d, ...]"
    else .ok (py_str (.str t))
  | tv => .ok (py_str tv)

/-- The one rendered line of a schema variable. -/
def field_line (var : YamlVal) : Except String String :=
  match var with
  | .dict kvs =>
    match ylookup kvs "name" with
    | none => .error "KeyError: 'name'"
    | some name =>
      match ylookup kvs "type" with
      | none => .error "KeyError: 'type'"
      | some type_val =>
        let required := py_truthy ((ylookup kvs "required").getD (.bool false))
        match field_type_desc kvs type_val with
        | .error e => .error e
        | .ok td =>
          .ok ("  \"" ++ py_str name ++ "\": " ++ td
            ++ (if required then " [REQUERIDO]" else " [opcional, puede ser null]"))
  | _ => .error "TypeError: variable is not a dict"

/-- The rendered lines of all variables, in order. -/
def field_lines : List YamlVal → Except String (List String)
  | [] => .ok []
  | var :: rest =>
    match field_line var with
    | .error e => .error e
    | .ok line =>
      match field_lines rest with
      | .error e => .error e
      | .ok lines => .ok (line :: lines)

/-- `format_schema_for_prompt(schema)`: header (its first `lines` entry
contains an embedded newline, `"Esquema JSON requerido:\n{"`), one
appended entry per variable, a closing brace, joined with newlines. -/
def format_schema_for_prompt (schema : YamlVal) : Except String String :=
  match schema with
  | .dict kvs =>
    match ylookup kvs "variables" with
    | none => .error "KeyError: 'variables'"
    | some (.list vars) =>
      match field_lines vars with
      | .error e => .error e
      | .ok lines =>
        .ok (py_join_nl (("Esquema JSON requerido:\n\x7b" :: lines) ++ ["\x7d"]))
    | some _ => .error "TypeError: 'variables' is not iterable as a list"
  | _ => .error "TypeError: schema is not a dict"

/-- Modelled from the spec: the spec's schema round-trip property
"re-extract[s] the canonical field list" from the rendered prompt text;
the repository has no such extractor, so this is the evident reading of
the rendering format — a field line starts with two spaces and a double
quote, and the field name is what stands before the next double quote. -/
def not_quote (c : Char) : Bool := c ≠ '"'

/-- Modelled from the spec: the field name carried by one rendered line,
if the line is a field line. -/
def extract_line_name (line : String) : Option String :=
  match line.data with
  | ' ' :: ' ' :: '"' :: rest => some ⟨rest.takeWhile not_quote⟩
  | _ => none

/-- Modelled from the spec: the field names recovered from rendered
prompt text, in order of appearance. -/
def extract_field_names (text : String) : List String :=
  (py_split_nl text).filterMap extract_line_name

/-! ## Extraction client (`llm_client/openai_client.py`)

`OpenAIClient` holds `model`, `temperature`, `max_tokens`.  The two call
sites build their chat-completion requests with the caller's
configuration, except that `_retry_with_correction` pins
`temperature=0.1` ("Más determinístico para correcciones"). -/

/-- The client configuration (`BaseLLMClient.__init__`). -/
structure ClientCfg where
  model : String
  temperature : ℚ
  max_tokens : Option Nat
deriving Repr, DecidableEq

/-- The parameters of one `chat.completions.create` call. -/
structure ChatRequest where
  model : String
  system_prompt : String
  user_prompt : String
  temperature : ℚ
  max_tokens : Option Nat
  response_format_json : Bool
deriving Repr, DecidableEq

/-- The request of the first extraction call (`extract_profile`, lines
112–121): the caller's own temperature. -/
def initial_request (c : ClientCfg) (system_prompt user_prompt : String) : ChatRequest :=
  ⟨c.model, system_prompt, user_prompt, c.temperature, c.max_tokens, true⟩

/-- The request of the correction call (`_retry_with_correction`, lines
217–226): `temperature=0.1`, pinned in the source, with everything else
from the client configuration. -/
def correction_request (c : ClientCfg) (system_prompt user_prompt : String) : ChatRequest :=
  ⟨c.model, system_prompt, user_prompt, 1/10, c.max_tokens, true⟩

/-- The environment of one `extract_profile` run.  The model provider is
a stub: `respond i` is the outcome of the `(i+1)`-th model call (the
prompt strings do not influence a stub and are therefore not threaded
into it); `parse` is the outcome contract of `parse_json_safely` (a
parsed object or an error, never both); `validate` is the outcome
contract of `validate_extraction`.  `extract_profile` is verified for
every behavior of these three, which covers the concrete
implementations elsewhere in this file. -/
structure LLMEnv where
  respond : Nat → Except String String
  parse : String → Except String Record
  validate : Record → Except String Record

/-- `_retry_with_correction`: one further model call (the prompt is the
original full context plus the correction addendum), then parse and
validate once more, raising — not retrying — on failure, with the error
message of this last attempt.  Returns the outcome paired with the total
number of model calls made. -/
def retry_with_correction (env : LLMEnv) (calls_made : Nat) (retry_count : Nat) :
    Except String Record × Nat :=
  match env.respond calls_made with
  | .error e =>
    (.error ("Error en reintento " ++ toString retry_count ++ ": " ++ e), calls_made + 1)
  | .ok response_text =>
    match env.parse response_text with
    | .error parse_error =>
      (.error ("Error parseando JSON en reintento " ++ toString retry_count ++ ": "
         ++ parse_error), calls_made + 1)
    | .ok data =>
      match env.validate data with
      | .error validation_error =>
        (.error ("Validación falló en reintento " ++ toString retry_count ++ ": "
           ++ validation_error), calls_made + 1)
      | .ok validated_data => (.ok validated_data, calls_made + 1)

/-- `extract_profile(text, schema, prompt_config, retry_count)`: one
model call; on a parse or validation failure with `retry_count < 1`,
exactly one correction attempt via `_retry_with_correction`; otherwise
the failure is raised.  (The `tenacity` decorator on the source method
uses `stop_after_attempt(1)` with `reraise=True`, i.e. a single attempt
whose exception is re-raised — it adds no further calls.)  Returns the
outcome paired with the total number of model calls made. -/
def extract_profile (env : LLMEnv) (retry_count : Nat) : Except String Record × Nat :=
  match env.respond 0 with
  | .error e => (.error ("Error llamando a OpenAI API: " ++ e), 1)
  | .ok response_text =>
    match env.parse response_text with
    | .error parse_error =>
      if retry_count < 1 then
        retry_with_correction env 1 (retry_count + 1)
      else
        (.error ("No se pudo parsear JSON después de " ++ toString (retry_count + 1)
           ++ " intentos: " ++ parse_error), 1)
    | .ok data =>
      match env.validate data with
      | .error validation_error =>
        if retry_count < 1 then
          retry_with_correction env 1 (retry_count + 1)
        else
          (.error ("Validación falló después de " ++ toString (retry_count + 1)
             ++ " intentos: " ++ validation_error), 1)
      | .ok validated_data => (.ok validated_data, 1)

/-! ## Derived fields and per-document processing (`app.py`) -/

/-- `pd.isna(x)` for a scalar in the pipeline's value domain: only
`None` is NA (JSON has no NaN, so `float('nan')` cannot occur here). -/
def is_na_scalar : Value → Bool
  | .null => true
  | _ => false

/-- The truth value of `pd.isna(value)` as the `or`-chain in `to_bool`
consumes it.  For a list, `pd.isna` returns a numpy boolean array, and
numpy defines the truth value of an array only when it has exactly one
element — for any other length the `or`-chain raises `ValueError`
(numpy ≥ 1.25 also raises for the empty array).  A nested list inside a
singleton is approximated by its scalar NA-ness; no claim exercises
that corner. -/
def pd_isna_truthy : Value → Except String Bool
  | .list [v] => .ok (is_na_scalar v)
  | .list _ =>
    .error "The truth value of an array with more than one element is ambiguous. Use a.any() or a.all()"
  | v => .ok (is_na_scalar v)

/-- `value is None or value == ""` — the first two tests of `to_bool`'s
guard (only `None` and the empty string satisfy them in this value
domain). -/
def is_none_or_empty : Value → Bool
  | .null => true
  | .str s => s == ""
  | _ => false

/-- `to_bool(value)`, the normalization helper inside
`calculate_derived_fields`: `None`/`""`/NA → `False`; booleans pass
through; strings are lowercased (not stripped) and compared against the
fixed truthy vocabulary; numbers are Python-truthy; anything else is
`False`.  Raises exactly when the `pd.isna` truth value does (the
source's `or` short-circuits past `pd.isna` only for `None` and `""`,
on which `pd.isna` is total anyway, so evaluating it first is
equivalent). -/
def to_bool (v : Value) : Except String Bool :=
  match pd_isna_truthy v with
  | .error e => .error e
  | .ok isna =>
    if is_none_or_empty v || isna then .ok false
    else
      match v with
      | .bool b => .ok b
      | .str s => .ok (["true", "yes", "sí", "si", "1"].contains (py_lower s))
      | .int n => .ok (n != 0)
      | .float q => .ok (decide (q ≠ 0))
      | _ => .ok false

/-- The ordered candidate names of the experience-confirmation signal. -/
def possible_exp_fields : List String :=
  ["experiencia_electricista_confirmada",
   "experiencia_electromecanico_confirmada",
   "experiencia_mecanico_industrial_confirmada",
   "experiencia_pañol_depositos_confirmada",
   "experiencia_confirmada"]

/-- The first candidate experience field present in the record. -/
def find_exp_field (r : Record) : Option String :=
  possible_exp_fields.find? fun f => rhas r f

/-- `calculate_derived_fields(result)`: normalize the four signals and
write `preaprobado` as their conjunction.  Embedded in `Except` because
`to_bool` raises on (multi-element) list values; on success the record
is updated in place. -/
def calculate_derived_fields (result : Record) : Except String Record := do
  let edad_en_rango ← to_bool (rget_default result "edad_en_rango" (.bool false))
  let experiencia_confirmada ←
    match find_exp_field result with
    | some f => to_bool (rget_default result f (.bool false))
    | none => pure false
  let hay_foto ← to_bool (rget_default result "hay_foto_en_cv" (.bool false))
  let secundaria_tecnica ← to_bool (rget_default result "secundaria_tecnica" (.bool false))
  let preaprobado_value :=
    edad_en_rango && experiencia_confirmada && hay_foto && secundaria_tecnica
  pure (rset result "preaprobado" (.bool preaprobado_value))

/-- The environment of one `process_single_cv` run: the file metadata
and the outcome of each effectful collaborator.  `parse_file` condenses
file parsing plus the OCR photo-note assembly into the produced text
(the claims do not depend on the note's wording), `extract` is the
outcome of `llm_client.extract_profile`, including provider errors. -/
structure DocEnv where
  fname : String
  fsource : String
  flink : Option String
  drive_available : Bool
  local_content : String
  download : Except String String
  sha1 : String → String
  parse_file : String → Except String String
  normalize_text : String → String
  extract : String → Except String Record

/-- The tail of `process_single_cv`'s `try` block, once the raw content
and the (possibly `sha1`-extended) result row are in hand: parse,
normalize, reject empty text, extract, merge, derive.  Each failing step
lands in the row's `error` field. -/
def process_pipeline (env : DocEnv) (content : String) (result1 : Record) : Record :=
  match env.parse_file content with
  | .error e => rset result1 "error" (.str e)
  | .ok parsed_text =>
    if py_strip (env.normalize_text parsed_text) = "" then
      rset result1 "error" (.str "No se pudo extraer texto del archivo")
    else
      match env.extract (env.normalize_text parsed_text) with
      | .error e => rset result1 "error" (.str e)
      | .ok extracted_data =>
        match calculate_derived_fields (rupdate result1 extracted_data) with
        | .ok r => r
        | .error e => rset (rupdate result1 extracted_data) "error" (.str e)

/-- `process_single_cv`: builds the base result row, then runs the
pipeline inside one `try`; any step's exception is caught and recorded
in the row's `error` field — the function itself never raises.  The
partially filled row is kept, as the source mutates `result` in place
(e.g. `sha1` stays when a later step fails). -/
def process_single_cv (env : DocEnv) : Record :=
  let result : Record :=
    [("archivo", .str env.fname), ("fuente", .str env.fsource),
     ("link", .str (env.flink.getD "")), ("error", .str "")]
  let acquired : Except String (String × Record) :=
    if env.fsource = "local" then .ok (env.local_content, result)
    else if env.drive_available then
      match env.download with
      | .ok c => .ok (c, rset result "sha1" (.str (env.sha1 c)))
      | .error e => .error e
    else .error "Servicio de Google Drive no disponible"
  match acquired with
  | .error e => rset result "error" (.str e)
  | .ok (content, result1) => process_pipeline env content result1

/-- The batch loop around `process_single_cv` (app.py, the
`as_completed` loop): one result row is appended per submitted document;
the `try/except` around `future.result()` would convert a raised
exception into a fallback error row, but `process_single_cv` never
raises.  The thread pool yields rows in completion order; the embedding
fixes submission order, which the isolation claims do not depend on. -/
def process_all_cvs (envs : List DocEnv) : List Record :=
  envs.map process_single_cv

/-! ## Theorems for the claims -/

/-- Statement vocabulary: a value already of a field's declared kind. -/
def value_of_declared_kind : VarType → Value → Bool
  | .string, .str _ => true
  | .integer, .int _ => true
  | .float, .float _ => true
  | .boolean, .bool _ => true
  | .categorical, .str _ => true
  | .list_string, .list vs => vs.all fun v => match v with | .str _ => true | _ => false
  | .list_integer, .list vs => vs.all fun v => match v with | .int _ => true | _ => false
  | .list_object, .list vs => vs.all fun v => match v with | .dict _ => true | _ => false
  | .object, .dict _ => true
  | _, _ => false

theorem rget_preprocess (data : Record) (schema : Schema) (k : String) :
    rget (preprocess_data data schema) k
      = (rget data k).map (preprocess_entry (type_map_find schema k)) := by
  induction data with
  | nil => rfl
  | cons p rest ih =>
    by_cases h : p.1 = k
    · simp [preprocess_data, rget, h]
    · simpa [preprocess_data, rget, h] using ih

theorem preprocess_entry_int_str (s : String) :
    preprocess_entry (some .integer) (.str s)
      = (match first_number_in_string s with
         | some n => Value.int n
         | none => Value.null) := rfl

theorem preprocess_entry_float_str (s : String) :
    preprocess_entry (some .float) (.str s)
      = (match py_float_of_string s with
         | some q => Value.float q
         | none => Value.null) := rfl

theorem preprocess_entry_bool_str (s : String) :
    preprocess_entry (some .boolean) (.str s)
      = (if preprocess_truthy.contains (py_strip (py_lower s)) then Value.bool true
         else if preprocess_falsy.contains (py_strip (py_lower s)) then Value.bool false
         else Value.null) := rfl

/-- Claim C1: a model stub whose responses always fail parsing or
validation drives `extract_profile` through exactly one correction
attempt — two model calls in total — after which the run fails with an
error carrying the second attempt's parse/validation message verbatim;
there is no third call and no fallback to default values (the outcome is
an error, not a record). -/
theorem claim_C1_retry_bound (env : LLMEnv)
    (h : ∀ i, ∃ s, env.respond i = .ok s ∧
       ((∃ pe, env.parse s = .error pe) ∨
        (∃ d ve, env.parse s = .ok d ∧ env.validate d = .error ve))) :
    ∃ e, extract_profile env 0 = (.error e, 2) ∧
      ∃ s, env.respond 1 = .ok s ∧
        ((∃ pe, env.parse s = .error pe ∧
            e = "Error parseando JSON en reintento 1: " ++ pe) ∨
         (∃ d ve, env.parse s = .ok d ∧ env.validate d = .error ve ∧
            e = "Validación falló en reintento 1: " ++ ve)) := by
  obtain ⟨s0, hs0, hf0⟩ := h 0
  obtain ⟨s1, hs1, hf1⟩ := h 1
  rcases hf1 with ⟨pe1, hpe1⟩ | ⟨d1, ve1, hd1, hve1⟩
  · refine ⟨"Error parseando JSON en reintento 1: " ++ pe1, ?_, s1, hs1,
      Or.inl ⟨pe1, hpe1, rfl⟩⟩
    rcases hf0 with ⟨pe, hpe⟩ | ⟨d, ve, hd, hve⟩ <;>
      simp [extract_profile, retry_with_correction, hs0, hs1, hpe1, *] <;> rfl
  · refine ⟨"Validación falló en reintento 1: " ++ ve1, ?_, s1, hs1,
      Or.inr ⟨d1, ve1, hd1, hve1, rfl⟩⟩
    rcases hf0 with ⟨pe, hpe⟩ | ⟨d, ve, hd, hve⟩ <;>
      simp [extract_profile, retry_with_correction, hs0, hs1, hd1, hve1, *] <;> rfl

/-- A stub that always answers with unparseable text. -/
def env_C1 : LLMEnv :=
  ⟨fun _ => .ok "respuesta", fun _ => .error "json inválido", .ok⟩

/-- Witness for C1 at a concrete always-failing stub. -/
theorem claim_C1_retry_bound_witness :
    ∃ e, extract_profile env_C1 0 = (.error e, 2) ∧
      ∃ s, env_C1.respond 1 = .ok s ∧
        ((∃ pe, env_C1.parse s = .error pe ∧
            e = "Error parseando JSON en reintento 1: " ++ pe) ∨
         (∃ d ve, env_C1.parse s = .ok d ∧ env_C1.validate d = .error ve ∧
            e = "Validación falló en reintento 1: " ++ ve)) :=
  claim_C1_retry_bound env_C1
    (fun _ => ⟨"respuesta", rfl, Or.inl ⟨"json inválido", rfl⟩⟩)

/-- Claim C7: the correction call's request is identical for two client
configurations that differ only in their configured temperature — the
correction temperature is pinned to the fixed most-deterministic value
0.1, independent of the caller's temperature. -/
theorem claim_C7_pinned_temperature (c1 c2 : ClientCfg) (system_prompt user_prompt : String)
    (hm : c1.model = c2.model) (hk : c1.max_tokens = c2.max_tokens) :
    correction_request c1 system_prompt user_prompt
      = correction_request c2 system_prompt user_prompt ∧
    (correction_request c1 system_prompt user_prompt).temperature = 1/10 := by
  constructor
  · simp [correction_request, hm, hk]
  · rfl

/-- Witness for C7: two configurations with temperatures 0.7 and 0.01. -/
theorem claim_C7_pinned_temperature_witness :
    correction_request ⟨"gpt-4o-mini", 7/10, some 2000⟩ "sys" "usr"
      = correction_request ⟨"gpt-4o-mini", 1/100, some 2000⟩ "sys" "usr" ∧
    (correction_request ⟨"gpt-4o-mini", 7/10, some 2000⟩ "sys" "usr").temperature = 1/10 :=
  claim_C7_pinned_temperature ⟨"gpt-4o-mini", 7/10, some 2000⟩
    ⟨"gpt-4o-mini", 1/100, some 2000⟩ "sys" "usr" rfl rfl

/-- Claim C3: for a field of declared kind `t`, the coercion pass leaves
a value already of kind `t` unchanged; coerces `"8/10"` to `8` for an
integer field; coerces the case variants of `"sí"`/`"no"` to
`true`/`false` for a boolean field; and coerces a string the declared
integer/float/boolean kind cannot absorb to `null`.  The pass is a total
function of the record (the source catches the conversion errors), so it
never raises. -/
theorem claim_C3_coercion (schema : Schema) (data : Record) (k : String)
    (t : VarType) (v : Value)
    (ht : type_map_find schema k = some t) (hv : rget data k = some v) :
    (value_of_declared_kind t v = true →
       rget (preprocess_data data schema) k = some v) ∧
    (t = .integer → v = .str "8/10" →
       rget (preprocess_data data schema) k = some (.int 8)) ∧
    (t = .boolean → (v = .str "sí" ∨ v = .str "Sí" ∨ v = .str "sÍ" ∨ v = .str "SÍ") →
       rget (preprocess_data data schema) k = some (.bool true)) ∧
    (t = .boolean → (v = .str "no" ∨ v = .str "No" ∨ v = .str "nO" ∨ v = .str "NO") →
       rget (preprocess_data data schema) k = some (.bool false)) ∧
    (t = .integer → ∀ s, v = .str s → first_number_in_string s = none →
       rget (preprocess_data data schema) k = some .null) ∧
    (t = .float → ∀ s, v = .str s → py_float_of_string s = none →
       rget (preprocess_data data schema) k = some .null) ∧
    (t = .boolean → ∀ s, v = .str s →
       preprocess_truthy.contains (py_strip (py_lower s)) = false →
       preprocess_falsy.contains (py_strip (py_lower s)) = false →
       rget (preprocess_data data schema) k = some .null) := by
  rw [rget_preprocess, hv, ht]
  simp only [Option.map_some']
  refine ⟨?_, ?_, ?_, ?_, ?_, ?_, ?_⟩
  · intro hkind
    cases t <;> cases v <;> simp_all [preprocess_entry, value_of_declared_kind]
  · rintro rfl rfl; rfl
  · rintro rfl (rfl | rfl | rfl | rfl) <;> rfl
  · rintro rfl (rfl | rfl | rfl | rfl) <;> rfl
  · rintro rfl s rfl hnone
    rw [preprocess_entry_int_str, hnone]
  · rintro rfl s rfl hnone
    rw [preprocess_entry_float_str, hnone]
  · rintro rfl s rfl h1 h2
    rw [preprocess_entry_bool_str]
    have h1' : py_strip (py_lower s) ∉ preprocess_truthy := by simpa using h1
    have h2' : py_strip (py_lower s) ∉ preprocess_falsy := by simpa using h2
    simp [h1', h2']

/-- A one-field integer schema used by the coercion witnesses. -/
def schema_W3 : Schema := ⟨1, [⟨"edad", .integer, false, none, none, none, [], []⟩]⟩

/-- Witness for C3: `"8/10"` coerces to the integer `8`. -/
theorem claim_C3_coercion_witness :
    rget (preprocess_data [("edad", Value.str "8/10")] schema_W3) "edad"
      = some (.int 8) :=
  (claim_C3_coercion schema_W3 [("edad", .str "8/10")] "edad" .integer
    (.str "8/10") rfl rfl).2.1 rfl rfl

/-- Claim C9: a string value of an integer-kind field coerces to null or
to a non-negative integer — the first unbroken run of decimal digits,
ignoring any minus sign — so `"-5"` coerces to `5`. -/
theorem claim_C9_integer_nonneg (schema : Schema) (data : Record) (k : String) (s : String)
    (ht : type_map_find schema k = some .integer)
    (hv : rget data k = some (.str s)) :
    (rget (preprocess_data data schema) k = some .null ∨
     ∃ n : Nat, rget (preprocess_data data schema) k = some (.int n)) ∧
    (s = "-5" → rget (preprocess_data data schema) k = some (.int 5)) := by
  rw [rget_preprocess, hv, ht]
  simp only [Option.map_some']
  constructor
  · cases hn : first_number_in_string s with
    | none => left; rw [preprocess_entry_int_str, hn]
    | some n => right; exact ⟨n, by rw [preprocess_entry_int_str, hn]⟩
  · rintro rfl; rfl

/-- Witness for C9: `"-5"` coerces to the non-negative integer `5`. -/
theorem claim_C9_integer_nonneg_witness :
    rget (preprocess_data [("edad", Value.str "-5")] schema_W3) "edad"
      = some (.int 5) :=
  (claim_C9_integer_nonneg schema_W3 [("edad", .str "-5")] "edad" "-5" rfl rfl).2 rfl

theorem run_fields_agree (vars : List Variable) (d1 d2 : Record)
    (h : ∀ var ∈ vars, rget d1 var.name = rget d2 var.name) :
    run_fields vars d1 = run_fields vars d2 := by
  induction vars with
  | nil => rfl
  | cons var rest ih =>
    have hv := h var (List.mem_cons_self var rest)
    have ih' := ih fun v hv' => h v (List.mem_cons_of_mem _ hv')
    simp [run_fields, hv, ih']

theorem run_fields_ok_keys (vars : List Variable) (d : Record) (fields : Record)
    (h : run_fields vars d = (fields, [])) :
    fields.map Prod.fst = vars.map Variable.name := by
  induction vars generalizing fields with
  | nil =>
    simp only [run_fields, Prod.mk.injEq] at h
    rw [← h.1]; rfl
  | cons var rest ih =>
    cases hrf : run_fields rest d with
    | mk tf te =>
      cases hfv : field_validate var (rget d var.name) with
      | ok val =>
        simp only [run_fields, hrf, hfv, Prod.mk.injEq] at h
        obtain ⟨hf, he⟩ := h
        subst he
        rw [← hf]
        simp [ih tf (by rw [hrf])]
      | error e =>
        simp only [run_fields, hrf, hfv, Prod.mk.injEq] at h
        exact absurd h.2 (by simp)

/-- Claim C2 (amended): the default `validate_extraction` path (the
dynamic pydantic model, whose config leaves pydantic's `extra='ignore'`
in force) neither rejects nor passes through undeclared top-level keys —
the validation outcome is exactly the outcome on the record with the
extra keys removed, and a successful output's keys are exactly the
schema's declared field names.  Rejection of unknown keys exists only in
the non-default `use_pydantic=False` branch (`jsonschema` with
`additionalProperties: false`), which no caller uses. -/
theorem claim_C2_unknown_keys (schema : Schema) (d1 d2 : Record)
    (hagree : ∀ var ∈ schema.vars, rget d1 var.name = rget d2 var.name) :
    validate_extraction d1 schema = validate_extraction d2 schema ∧
    ∀ r, (validate_extraction d1 schema).2.1 = some r →
      rkeys r = schema.vars.map Variable.name := by
  have key : run_fields schema.vars (preprocess_data d1 schema)
      = run_fields schema.vars (preprocess_data d2 schema) := by
    apply run_fields_agree
    intro var hvar
    rw [rget_preprocess, rget_preprocess, hagree var hvar]
  constructor
  · simp [validate_extraction, validate_with_pydantic, key]
  · intro r hr
    cases hrf : run_fields schema.vars (preprocess_data d1 schema) with
    | mk fields errs =>
      cases errs with
      | nil =>
        simp only [validate_extraction, validate_with_pydantic, hrf] at hr
        obtain rfl : fields = r := by simpa using hr
        exact run_fields_ok_keys _ _ _ hrf
      | cons e es =>
        simp [validate_extraction, validate_with_pydantic, hrf] at hr

/-- A one-required-string-field schema (`nombre`). -/
def schema_C2 : Schema := ⟨1, [⟨"nombre", .string, true, none, none, none, [], []⟩]⟩

/-- Counterexample to claim C2 as stated: a record whose declared field
is valid and which carries the undeclared key `extra` is *not* rejected
by `validate_extraction` — it validates successfully and the extra key
is silently dropped from the output. -/
theorem claim_C2_counterexample :
    validate_extraction [("nombre", .str "Ana"), ("extra", .int 1)] schema_C2
      = (true, some [("nombre", .str "Ana")], none) := rfl

/-- Witness for C2 (amended) at the counterexample's record. -/
theorem claim_C2_unknown_keys_witness :
    validate_extraction [("nombre", .str "Ana"), ("extra", .int 1)] schema_C2
      = validate_extraction [("nombre", .str "Ana")] schema_C2 ∧
    ∀ r, (validate_extraction [("nombre", .str "Ana"), ("extra", .int 1)] schema_C2).2.1
        = some r → rkeys r = schema_C2.vars.map Variable.name :=
  claim_C2_unknown_keys schema_C2 [("nombre", .str "Ana"), ("extra", .int 1)]
    [("nombre", .str "Ana")]
    (by intro var hvar; simp [schema_C2] at hvar; subst hvar; rfl)

/-- A schema whose single integer variable `edad` declares the given
`min` and `max` attributes. -/
def schema_bounds (mn mx : YamlVal) : YamlVal :=
  .dict [("version", .int 1),
         ("variables", .list [.dict [("name", .str "edad"), ("type", .str "integer"),
                                     ("min", mn), ("max", mx)]])]

/-- Counterexample to claim C6 as stated: a schema declaring
`min: 10, max: 5` (inconsistent bounds) compiles successfully —
`load_yaml_schema` never compares the two bounds. -/
theorem claim_C6_counterexample :
    load_yaml_schema (schema_bounds (.int 10) (.int 5))
      = .ok (schema_bounds (.int 10) (.int 5)) := rfl

/-- Claim C6 (amended): schema compilation checks only that declared
integer bounds are numeric — a non-numeric bound is rejected with an
error naming the offending field — and performs no min ≤ max
consistency check, so every schema with numeric bounds compiles, in
particular those with min greater than max. -/
theorem claim_C6_bounds_not_compared (a b : Int) :
    load_yaml_schema (schema_bounds (.int a) (.int b))
      = .ok (schema_bounds (.int a) (.int b)) ∧
    load_yaml_schema (schema_bounds (.str "dos") (.int b))
      = .error "'min' de 'edad' debe ser un número" :=
  ⟨rfl, rfl⟩

/-- Statement vocabulary: a value on which `pd.isna` is scalar (not a
Python list — `to_bool` raises on lists of length ≠ 1). -/
def scalar_value : Value → Bool
  | .list _ => false
  | _ => true

theorem to_bool_scalar (v : Value) (h : scalar_value v = true) :
    ∃ b, to_bool v = .ok b := by
  cases v with
  | list vs => simp [scalar_value] at h
  | str s =>
    by_cases hs : (s == "") = true <;>
      simp [to_bool, pd_isna_truthy, is_na_scalar, is_none_or_empty, hs]
  | null => exact ⟨false, rfl⟩
  | bool b => exact ⟨b, rfl⟩
  | int n => exact ⟨n != 0, rfl⟩
  | float q => exact ⟨decide (q ≠ 0), rfl⟩
  | dict kvs => exact ⟨false, rfl⟩

/-- Claim C4 (amended): for every record whose four probed signal fields
hold non-list values, `calculate_derived_fields` succeeds and writes
`preaprobado` as the conjunction of the four normalized boolean signals
(age-in-range, first-present experience field, photo, technical
secondary education): it is true exactly when all four normalize to
true, so flipping any single normalized signal to false makes it false.
On a list-valued signal the function is *not* total: the `pd.isna` call
inside `to_bool` produces a numpy array whose truth test raises. -/
theorem claim_C4_preaprobado (r : Record)
    (h1 : scalar_value (rget_default r "edad_en_rango" (.bool false)) = true)
    (h2 : ∀ f, find_exp_field r = some f →
       scalar_value (rget_default r f (.bool false)) = true)
    (h3 : scalar_value (rget_default r "hay_foto_en_cv" (.bool false)) = true)
    (h4 : scalar_value (rget_default r "secundaria_tecnica" (.bool false)) = true) :
    ∃ edad exp foto tecnica : Bool,
      to_bool (rget_default r "edad_en_rango" (.bool false)) = .ok edad ∧
      (∀ f, find_exp_field r = some f →
         to_bool (rget_default r f (.bool false)) = .ok exp) ∧
      (find_exp_field r = none → exp = false) ∧
      to_bool (rget_default r "hay_foto_en_cv" (.bool false)) = .ok foto ∧
      to_bool (rget_default r "secundaria_tecnica" (.bool false)) = .ok tecnica ∧
      calculate_derived_fields r
        = .ok (rset r "preaprobado" (.bool (edad && exp && foto && tecnica))) ∧
      ((edad && exp && foto && tecnica) = true ↔
         (edad = true ∧ exp = true ∧ foto = true ∧ tecnica = true)) := by
  obtain ⟨edad, he⟩ := to_bool_scalar _ h1
  obtain ⟨foto, hf⟩ := to_bool_scalar _ h3
  obtain ⟨tecnica, ht⟩ := to_bool_scalar _ h4
  cases hexp : find_exp_field r with
  | none =>
    refine ⟨edad, false, foto, tecnica, he, ?_, fun _ => rfl, hf, ht, ?_, by
      simp [and_assoc]⟩
    · intro f hff
      simp at hff
    · simp [calculate_derived_fields, he, hexp, hf, ht, Bind.bind, Except.bind,
        pure, Except.pure]
  | some fexp =>
    obtain ⟨exp, hx⟩ := to_bool_scalar _ (h2 fexp hexp)
    refine ⟨edad, exp, foto, tecnica, he, ?_, ?_, hf, ht, ?_, by simp [and_assoc]⟩
    · intro f hff
      obtain rfl := Option.some.inj hff
      exact hx
    · intro hn
      simp at hn
    · simp [calculate_derived_fields, he, hexp, hx, hf, ht, Bind.bind, Except.bind,
        pure, Except.pure]

/-- Counterexample to claim C4 as stated ("the function is total and
never fails"): a record whose `edad_en_rango` holds a two-element list
makes `calculate_derived_fields` raise — `pd.isna` of a list is a numpy
array, whose use in the `or`-chain raises `ValueError`. -/
theorem claim_C4_counterexample :
    calculate_derived_fields [("edad_en_rango", .list [.int 1, .int 2])]
      = .error "The truth value of an array with more than one element is ambiguous. Use a.any() or a.all()" := rfl

/-- A concrete record with all four signals affirmative. -/
def record_C4 : Record :=
  [("edad_en_rango", .bool true),
   ("experiencia_electricista_confirmada", .str "Sí"),
   ("hay_foto_en_cv", .int 1),
   ("secundaria_tecnica", .str "true")]

/-- Witness for C4 (amended) at a concrete all-affirmative record. -/
theorem claim_C4_preaprobado_witness :
    ∃ edad exp foto tecnica : Bool,
      to_bool (rget_default record_C4 "edad_en_rango" (.bool false)) = .ok edad ∧
      (∀ f, find_exp_field record_C4 = some f →
         to_bool (rget_default record_C4 f (.bool false)) = .ok exp) ∧
      (find_exp_field record_C4 = none → exp = false) ∧
      to_bool (rget_default record_C4 "hay_foto_en_cv" (.bool false)) = .ok foto ∧
      to_bool (rget_default record_C4 "secundaria_tecnica" (.bool false)) = .ok tecnica ∧
      calculate_derived_fields record_C4
        = .ok (rset record_C4 "preaprobado" (.bool (edad && exp && foto && tecnica))) ∧
      ((edad && exp && foto && tecnica) = true ↔
         (edad = true ∧ exp = true ∧ foto = true ∧ tecnica = true)) :=
  claim_C4_preaprobado record_C4 rfl
    (by
      intro f hff
      rw [show find_exp_field record_C4 = some "experiencia_electricista_confirmada" from rfl]
        at hff
      obtain rfl := Option.some.inj hff
      rfl)
    rfl rfl

theorem except_bind_ok {α β : Type} {x : Except String α} {f : α → Except String β} {b : β}
    (h : (x >>= f) = .ok b) : ∃ a, x = .ok a ∧ f a = .ok b := by
  cases x with
  | ok a => exact ⟨a, rfl, h⟩
  | error e => simp [Bind.bind, Except.bind] at h

theorem calculate_shape (r r' : Record) (h : calculate_derived_fields r = .ok r') :
    ∃ p : Bool, r' = rset r "preaprobado" (.bool p) := by
  unfold calculate_derived_fields at h
  obtain ⟨b1, hb1, h⟩ := except_bind_ok h
  cases hexp : find_exp_field r with
  | none =>
    rw [hexp] at h
    simp only [pure_bind] at h
    obtain ⟨b3, hb3, h⟩ := except_bind_ok h
    obtain ⟨b4, hb4, h⟩ := except_bind_ok h
    simp only [pure, Except.pure, Except.ok.injEq] at h
    exact ⟨_, h.symm⟩
  | some f =>
    rw [hexp] at h
    obtain ⟨b2, hb2, h⟩ := except_bind_ok h
    obtain ⟨b3, hb3, h⟩ := except_bind_ok h
    obtain ⟨b4, hb4, h⟩ := except_bind_ok h
    simp only [pure, Except.pure, Except.ok.injEq] at h
    exact ⟨_, h.symm⟩

/-- Claim C10: whenever `calculate_derived_fields` produces an output
record, only the key `preaprobado` is written: every other key keeps its
input value, `preaprobado` holds a boolean, and the key set is the input
key set with `preaprobado` appended exactly when it was absent. -/
theorem claim_C10_frame (r r' : Record) (h : calculate_derived_fields r = .ok r') :
    (∀ k, k ≠ "preaprobado" → rget r' k = rget r k) ∧
    (∃ b, rget r' "preaprobado" = some (.bool b)) ∧
    rkeys r' = (if rhas r "preaprobado" then rkeys r else rkeys r ++ ["preaprobado"]) := by
  obtain ⟨p, rfl⟩ := calculate_shape r r' h
  refine ⟨fun k hk => rget_rset_other r "preaprobado" k _ (Ne.symm hk),
    ⟨p, rget_rset_same r "preaprobado" _⟩, ?_⟩
  by_cases hp : rhas r "preaprobado"
  · simp [hp, rkeys_rset_mem r "preaprobado" _ hp]
  · simp [hp, rkeys_rset_new r "preaprobado" _ (by simpa using hp)]

/-- Witness for C10 at a concrete record without `preaprobado`. -/
theorem claim_C10_frame_witness :
    (∀ k, k ≠ "preaprobado" →
       rget (rset [("nombre", Value.str "Ana")] "preaprobado" (.bool false)) k
         = rget [("nombre", Value.str "Ana")] k) ∧
    (∃ b, rget (rset [("nombre", Value.str "Ana")] "preaprobado" (.bool false)) "preaprobado"
       = some (.bool b)) ∧
    rkeys (rset [("nombre", Value.str "Ana")] "preaprobado" (.bool false))
      = (if rhas [("nombre", Value.str "Ana")] "preaprobado"
         then rkeys [("nombre", Value.str "Ana")]
         else rkeys [("nombre", Value.str "Ana")] ++ ["preaprobado"]) :=
  claim_C10_frame [("nombre", .str "Ana")]
    (rset [("nombre", .str "Ana")] "preaprobado" (.bool false)) rfl

theorem rget_rupdate_not_mem (r other : Record) (k : String) (h : k ∉ rkeys other) :
    rget (rupdate r other) k = rget r k := by
  induction other generalizing r with
  | nil => rfl
  | cons p rest ih =>
    simp only [rkeys, List.map_cons, List.mem_cons, not_or] at h
    have step : rupdate r (p :: rest) = rupdate (rset r p.1 p.2) rest := rfl
    rw [step, ih (rset r p.1 p.2) (by simpa [rkeys] using h.2),
      rget_rset_other r p.1 k p.2 fun hh => h.1 hh.symm]

theorem rget_rupdate_mem_nodup (r other : Record) (k : String) (v : Value)
    (hnd : (rkeys other).Nodup) (h : rget other k = some v) :
    rget (rupdate r other) k = some v := by
  induction other generalizing r with
  | nil => simp [rget] at h
  | cons p rest ih =>
    simp only [rkeys, List.map_cons, List.nodup_cons] at hnd
    have step : rupdate r (p :: rest) = rupdate (rset r p.1 p.2) rest := rfl
    by_cases hk : p.1 = k
    · subst hk
      simp only [rget, if_pos rfl] at h
      obtain rfl := Option.some.inj h
      rw [step, rget_rupdate_not_mem _ _ _ (by simpa [rkeys] using hnd.1),
        rget_rset_same]
    · simp only [rget, if_neg hk] at h
      rw [step, ih (rset r p.1 p.2) (by simpa [rkeys] using hnd.2) h]

theorem except_bind_error {α β : Type} {x : Except String α} {f : α → Except String β}
    {e : String} (h : (x >>= f) = .error e) :
    x = .error e ∨ ∃ a, x = .ok a ∧ f a = .error e := by
  cases x with
  | ok a => exact Or.inr ⟨a, rfl, h⟩
  | error e' => left; simpa [Bind.bind, Except.bind] using h

/-- The only error `pd_isna_truthy` produces is the fixed numpy message. -/
theorem pd_isna_error (v : Value) (e : String) (h : pd_isna_truthy v = .error e) :
    e = "The truth value of an array with more than one element is ambiguous. Use a.any() or a.all()" := by
  cases v with
  | list vs =>
    cases vs with
    | nil => simpa [pd_isna_truthy] using h.symm
    | cons a rest =>
      cases rest with
      | nil => simp [pd_isna_truthy] at h
      | cons b rest' => simpa [pd_isna_truthy] using h.symm
  | null => simp [pd_isna_truthy] at h
  | bool b => simp [pd_isna_truthy] at h
  | int n => simp [pd_isna_truthy] at h
  | float q => simp [pd_isna_truthy] at h
  | str s => simp [pd_isna_truthy] at h
  | dict kvs => simp [pd_isna_truthy] at h

theorem to_bool_error_nonempty (v : Value) (e : String) (h : to_bool v = .error e) :
    e ≠ "" := by
  unfold to_bool at h
  cases hp : pd_isna_truthy v with
  | error e' =>
    rw [hp] at h
    obtain rfl : e' = e := by simpa using h
    rw [pd_isna_error v e' hp]
    decide
  | ok isna =>
    rw [hp] at h
    split at h
    · simp_all
    · cases v <;> split at h <;> simp at h

theorem calculate_error_nonempty (r : Record) (e : String)
    (h : calculate_derived_fields r = .error e) : e ≠ "" := by
  unfold calculate_derived_fields at h
  rcases except_bind_error h with h1 | ⟨b1, hb1, h⟩
  · exact to_bool_error_nonempty _ _ h1
  · cases hexp : find_exp_field r with
    | none =>
      rw [hexp] at h
      simp only [pure_bind] at h
      rcases except_bind_error h with h1 | ⟨b3, hb3, h⟩
      · exact to_bool_error_nonempty _ _ h1
      · rcases except_bind_error h with h1 | ⟨b4, hb4, h⟩
        · exact to_bool_error_nonempty _ _ h1
        · simp [pure, Except.pure] at h
    | some f =>
      rw [hexp] at h
      rcases except_bind_error h with h1 | ⟨b2, hb2, h⟩
      · exact to_bool_error_nonempty _ _ h1
      · rcases except_bind_error h with h1 | ⟨b3, hb3, h⟩
        · exact to_bool_error_nonempty _ _ h1
        · rcases except_bind_error h with h1 | ⟨b4, hb4, h⟩
          · exact to_bool_error_nonempty _ _ h1
          · simp [pure, Except.pure] at h

/-- The per-document environment behaviors the batch claim relies on:
every collaborator failure carries a non-empty message (Python
exceptions in this code path always do), and extraction outputs are
dict-shaped — unique keys not colliding with the row's `error` metadata
key (they are schema field names). -/
def doc_env_wellformed (env : DocEnv) : Prop :=
  (∀ e, env.download = .error e → e ≠ "") ∧
  (∀ c e, env.parse_file c = .error e → e ≠ "") ∧
  (∀ t e, env.extract t = .error e → e ≠ "") ∧
  (∀ t d, env.extract t = .ok d → (rkeys d).Nodup ∧ "error" ∉ rkeys d)

/-- The per-document outcome the batch claim asserts: the row records a
successful extraction (empty `error`, extracted values present) or a
non-empty error string. -/
def result_ok_or_error (env : DocEnv) (r : Record) : Prop :=
  (rget r "error" = some (.str "") ∧
     ∃ t d, env.extract t = .ok d ∧
       ∀ k v, k ≠ "preaprobado" → rget d k = some v → rget r k = some v) ∨
  (∃ e, rget r "error" = some (.str e) ∧ e ≠ "")

theorem process_pipeline_spec (env : DocEnv) (content : String) (result1 : Record)
    (herr : rget result1 "error" = some (.str ""))
    (hpf : ∀ c e, env.parse_file c = .error e → e ≠ "")
    (hex : ∀ t e, env.extract t = .error e → e ≠ "")
    (hexok : ∀ t d, env.extract t = .ok d → (rkeys d).Nodup ∧ "error" ∉ rkeys d) :
    result_ok_or_error env (process_pipeline env content result1) := by
  unfold process_pipeline
  cases hp : env.parse_file content with
  | error e =>
    dsimp only
    exact Or.inr ⟨e, by rw [rget_rset_same], hpf _ _ hp⟩
  | ok parsed =>
    dsimp only
    by_cases ht : py_strip (env.normalize_text parsed) = ""
    · rw [if_pos ht]
      exact Or.inr ⟨"No se pudo extraer texto del archivo",
        by rw [rget_rset_same], by decide⟩
    · rw [if_neg ht]
      cases hx : env.extract (env.normalize_text parsed) with
      | error e =>
        dsimp only
        exact Or.inr ⟨e, by rw [rget_rset_same], hex _ _ hx⟩
      | ok d =>
        dsimp only
        obtain ⟨hnodup, herrkey⟩ := hexok _ _ hx
        cases hc : calculate_derived_fields (rupdate result1 d) with
        | error e =>
          dsimp only
          exact Or.inr ⟨e, by rw [rget_rset_same], calculate_error_nonempty _ _ hc⟩
        | ok rr =>
          dsimp only
          left
          obtain ⟨p, rfl⟩ := calculate_shape _ _ hc
          refine ⟨?_, env.normalize_text parsed, d, hx, ?_⟩
          · rw [rget_rset_other _ _ _ _ (by decide),
              rget_rupdate_not_mem _ _ _ herrkey, herr]
          · intro k v hk hkv
            rw [rget_rset_other _ _ _ _ (Ne.symm hk)]
            exact rget_rupdate_mem_nodup _ _ _ _ hnodup hkv

/-- Claim C5 (per document): `process_single_cv` is total and its row
satisfies the data-or-error contract. -/
theorem process_single_cv_spec (env : DocEnv) (hwf : doc_env_wellformed env) :
    result_ok_or_error env (process_single_cv env) := by
  obtain ⟨hdl, hpf, hex, hexok⟩ := hwf
  unfold process_single_cv
  dsimp only
  by_cases hsrc : env.fsource = "local"
  · rw [if_pos hsrc]
    dsimp only
    exact process_pipeline_spec env _ _ rfl hpf hex hexok
  · rw [if_neg hsrc]
    by_cases hdrive : env.drive_available = true
    · rw [if_pos hdrive]
      cases hd : env.download with
      | error e =>
        dsimp only
        exact Or.inr ⟨e, by rw [rget_rset_same], hdl _ hd⟩
      | ok c =>
        dsimp only
        refine process_pipeline_spec env _ _ ?_ hpf hex hexok
        rw [rget_rset_other _ _ _ _ (by decide)]
        rfl
    · rw [if_neg hdrive]
      dsimp only
      exact Or.inr ⟨"Servicio de Google Drive no disponible",
        by rw [rget_rset_same], by decide⟩

/-- Claim C5: the batch loop appends exactly one result row per
submitted document; each document's row is a function of that document's
own environment alone (so one document's failure cannot affect a
sibling's row), and every row either carries the extracted data with an
empty error field or a non-empty error string. -/
theorem claim_C5_batch_isolation (envs : List DocEnv)
    (hwf : ∀ env ∈ envs, doc_env_wellformed env) :
    (process_all_cvs envs).length = envs.length ∧
    ∀ i (hi : i < envs.length),
      (process_all_cvs envs)[i]? = some (process_single_cv envs[i]) ∧
      result_ok_or_error envs[i] (process_single_cv envs[i]) := by
  refine ⟨by simp [process_all_cvs], fun i hi => ⟨?_, ?_⟩⟩
  · simp [process_all_cvs, List.getElem?_eq_getElem hi]
  · exact process_single_cv_spec _ (hwf _ (List.getElem_mem hi))

/-- A local-source document environment with a fixed extraction outcome. -/
def doc_env_local (nm txt : String) (ext : Except String Record) : DocEnv :=
  ⟨nm, "local", none, false, txt, .error "sin Drive", fun _ => "", fun c => .ok c,
   fun t => t, fun _ => ext⟩

theorem doc_env_local_wf (nm txt : String) (ext : Except String Record)
    (h1 : ∀ e, ext = .error e → e ≠ "")
    (h2 : ∀ d, ext = .ok d → (rkeys d).Nodup ∧ "error" ∉ rkeys d) :
    doc_env_wellformed (doc_env_local nm txt ext) := by
  refine ⟨?_, ?_, ?_, ?_⟩
  · intro e h
    rw [← Except.error.inj h]
    decide
  · intro c e h
    simp [doc_env_local] at h
  · intro t e h
    exact h1 e h
  · intro t d h
    exact h2 d h

/-- The three-document batch of the spec's isolation scenario: document
2's model call fails with a provider error. -/
def envs_C5 : List DocEnv :=
  [doc_env_local "cv1.pdf" "texto uno" (.ok [("nombre", .str "Ana")]),
   doc_env_local "cv2.pdf" "texto dos" (.error "Error llamando a OpenAI API: ProviderError"),
   doc_env_local "cv3.pdf" "texto tres" (.ok [("nombre", .str "Luz")])]

/-- Witness for C5 at the concrete three-document batch. -/
theorem claim_C5_batch_isolation_witness :
    (process_all_cvs envs_C5).length = envs_C5.length ∧
    ∀ i (hi : i < envs_C5.length),
      (process_all_cvs envs_C5)[i]? = some (process_single_cv envs_C5[i]) ∧
      result_ok_or_error envs_C5[i] (process_single_cv envs_C5[i]) :=
  claim_C5_batch_isolation envs_C5 (by
    intro env henv
    simp only [envs_C5, List.mem_cons, List.not_mem_nil, or_false] at henv
    rcases henv with rfl | rfl | rfl
    · exact doc_env_local_wf _ _ _ (fun e h => by simp at h)
        (fun d h => by rw [← Except.ok.inj h]; exact ⟨by decide, by decide⟩)
    · exact doc_env_local_wf _ _ _ (fun e h => by rw [← Except.error.inj h]; decide)
        (fun d h => by simp at h)
    · exact doc_env_local_wf _ _ _ (fun e h => by simp at h)
        (fun d h => by rw [← Except.ok.inj h]; exact ⟨by decide, by decide⟩))

theorem takeWhile_not_quote (l rest : List Char) (h : '"' ∉ l) :
    (l ++ '"' :: rest).takeWhile not_quote = l := by
  induction l with
  | nil => simp [List.takeWhile, not_quote]
  | cons c cs ih =>
    simp only [List.mem_cons, not_or] at h
    have hc : not_quote c = true := by
      simp [not_quote]
      exact fun hh => h.1 hh.symm
    simp [List.takeWhile_cons, hc, ih h.2]

theorem extract_line_name_shape (nm line : String) (rest : List Char)
    (hq : '"' ∉ nm.data)
    (hl : line.data = ' ' :: ' ' :: '"' :: (nm.data ++ '"' :: rest)) :
    extract_line_name line = some nm := by
  have hstep : extract_line_name line
      = some ⟨(nm.data ++ '"' :: rest).takeWhile not_quote⟩ := by
    unfold extract_line_name
    rw [hl]
    rfl
  rw [hstep, takeWhile_not_quote nm.data rest hq]

theorem field_line_shape (vkvs : List (String × YamlVal)) (nm : String) (line : String)
    (hname : ylookup vkvs "name" = some (.str nm))
    (h : field_line (.dict vkvs) = .ok line) :
    ∃ rest, line.data = ' ' :: ' ' :: '"' :: (nm.data ++ '"' :: rest) := by
  unfold field_line at h
  dsimp only at h
  rw [hname] at h
  dsimp only at h
  cases hty : ylookup vkvs "type" with
  | none => rw [hty] at h; simp at h
  | some tv =>
    rw [hty] at h
    dsimp only at h
    cases htd : field_type_desc vkvs tv with
    | error e => rw [htd] at h; simp at h
    | ok td =>
      rw [htd] at h
      dsimp only at h
      obtain rfl : _ = line := by simpa using h
      refine ⟨':' :: ' ' ::
        (td ++ if py_truthy ((ylookup vkvs "required").getD (.bool false))
               then " [REQUERIDO]" else " [opcional, puede ser null]").data, ?_⟩
      simp [String.data_append, py_str]

theorem field_lines_forall2 (vars : List YamlVal) (lines : List String)
    (h : field_lines vars = .ok lines) :
    List.Forall₂ (fun var line => field_line var = .ok line) vars lines := by
  induction vars generalizing lines with
  | nil =>
    obtain rfl : lines = [] := by simpa [field_lines] using h.symm
    exact List.Forall₂.nil
  | cons v vs ih =>
    simp only [field_lines] at h
    cases hfl : field_line v with
    | error e => rw [hfl] at h; simp at h
    | ok line =>
      rw [hfl] at h
      cases hrest : field_lines vs with
      | error e => rw [hrest] at h; simp at h
      | ok ls =>
        rw [hrest] at h
        obtain rfl : line :: ls = lines := by simpa using h
        exact List.Forall₂.cons hfl (ih ls hrest)

theorem field_lines_total (vars : List YamlVal)
    (h : ∀ var ∈ vars, ∃ line, field_line var = .ok line) :
    ∃ lines, field_lines vars = .ok lines := by
  induction vars with
  | nil => exact ⟨[], rfl⟩
  | cons v vs ih =>
    obtain ⟨line, hline⟩ := h v (List.mem_cons_self v vs)
    obtain ⟨lines, hlines⟩ := ih fun var hv => h var (List.mem_cons_of_mem _ hv)
    exact ⟨line :: lines, by simp [field_lines, hline, hlines]⟩

theorem validate_vars_each (vars : List YamlVal) (i : Nat) (seen : List YamlVal)
    (h : validate_vars vars i seen = .ok ()) :
    ∀ var ∈ vars, ∃ j seen' s, validate_variable var j seen' = .ok s := by
  induction vars generalizing i seen with
  | nil => intro var hv; simp at hv
  | cons v vs ih =>
    intro var hv
    simp only [validate_vars] at h
    cases hvv : validate_variable v i seen with
    | error e => rw [hvv] at h; simp at h
    | ok seen' =>
      rw [hvv] at h
      rcases List.mem_cons.1 hv with rfl | hmem
      · exact ⟨i, seen, seen', hvv⟩
      · exact ih (i + 1) seen' h var hmem

theorem ite_ok {c : Prop} [Decidable c] (a b : String) :
    ∃ td, (if c then (.ok a : Except String String) else .ok b) = .ok td := by
  by_cases h : c <;> simp [h]

theorem field_type_desc_ok (kvs : List (String × YamlVal)) (tv : YamlVal)
    (hcat : tv = .str "categorical" → ∃ vs, ylookup kvs "allowed_values" = some (.list vs)) :
    ∃ td, field_type_desc kvs tv = .ok td := by
  cases tv with
  | str t =>
    unfold field_type_desc
    dsimp only
    by_cases h1 : t = "string"
    · rw [if_pos h1]; exact ⟨_, rfl⟩
    · rw [if_neg h1]
      by_cases h2 : t = "boolean"
      · rw [if_pos h2]; exact ⟨_, rfl⟩
      · rw [if_neg h2]
        by_cases h3 : t = "integer"
        · rw [if_pos h3]
          exact ite_ok _ _
        · rw [if_neg h3]
          by_cases h4 : t = "categorical"
          · rw [if_pos h4]
            obtain ⟨vs, hav⟩ := hcat (by rw [h4])
            rw [hav]
            exact ⟨_, rfl⟩
          · rw [if_neg h4]
            by_cases h5 : t = "list[string]"
            · rw [if_pos h5]; exact ⟨_, rfl⟩
            · rw [if_neg h5]
              by_cases h6 : t = "list[object]"
              · rw [if_pos h6]; exact ⟨_, rfl⟩
              · rw [if_neg h6]; exact ⟨_, rfl⟩
  | null => exact ⟨_, rfl⟩
  | bool b => exact ⟨_, rfl⟩
  | int n => exact ⟨_, rfl⟩
  | list vs => exact ⟨_, rfl⟩
  | dict kvs2 => exact ⟨_, rfl⟩

theorem validate_variable_renders (var : YamlVal) (i : Nat) (seen s : List YamlVal)
    (h : validate_variable var i seen = .ok s) :
    ∃ line, field_line var = .ok line := by
  cases var with
  | null => simp [validate_variable] at h
  | bool b => simp [validate_variable] at h
  | int n => simp [validate_variable] at h
  | str st => simp [validate_variable] at h
  | list vs => simp [validate_variable] at h
  | dict kvs =>
    unfold validate_variable at h
    dsimp only at h
    cases hname : ylookup kvs "name" with
    | none => rw [hname] at h; simp at h
    | some name =>
      rw [hname] at h
      dsimp only at h
      cases hty : ylookup kvs "type" with
      | none => rw [hty] at h; simp at h
      | some tv =>
        rw [hty] at h
        dsimp only at h
        split_ifs at h with hA hB hC hD hE hF hG hH hI <;> try simp at h
        -- surviving branch: every guard of the validation chain is false
        have hcat : tv = .str "categorical" →
            ∃ vs, ylookup kvs "allowed_values" = some (.list vs) := by
          rintro rfl
          simp only [Bool.and_eq_true, not_and, Bool.not_eq_true] at hC hD
          cases hav : ylookup kvs "allowed_values" with
          | none => simp [hav] at hC
          | some x =>
            cases x with
            | list vs => exact ⟨vs, rfl⟩
            | null => simp [hav] at hD
            | bool b => simp [hav] at hD
            | int n => simp [hav] at hD
            | str st => simp [hav] at hD
            | dict kvs2 => simp [hav] at hD
        obtain ⟨td, htd⟩ := field_type_desc_ok kvs tv hcat
        unfold field_line
        dsimp only
        rw [hname]
        dsimp only
        rw [hty]
        dsimp only
        rw [htd]
        exact ⟨_, rfl⟩

theorem gvn_fold (vars : List YamlVal) (nms : List String)
    (hren : List.Forall₂ (fun var nm => ∃ vkvs, var = .dict vkvs ∧
       ylookup vkvs "name" = some (.str nm)) vars nms) :
    ∀ acc, vars.foldl gvn_step (.ok acc) = .ok (acc ++ nms.map YamlVal.str) := by
  induction hren with
  | nil => intro acc; simp
  | cons hv hrest ih =>
    intro acc
    obtain ⟨vkvs, rfl, hname⟩ := hv
    simp only [List.foldl_cons, gvn_step, hname]
    rw [ih]
    simp

theorem lines_no_nl (vars : List YamlVal) (lines : List String)
    (hfl : List.Forall₂ (fun var line => field_line var = .ok line) vars lines)
    (hnl : ∀ var ∈ vars, ∀ line, field_line var = .ok line → '\n' ∉ line.data) :
    ∀ line ∈ lines, '\n' ∉ line.data := by
  induction hfl with
  | nil => intro line hl; simp at hl
  | cons hv hrest ih =>
    intro line hl
    rcases List.mem_cons.1 hl with rfl | hmem
    · exact hnl _ (List.mem_cons_self _ _) _ hv
    · exact ih (fun var hvar l hl2 => hnl var (List.mem_cons_of_mem _ hvar) l hl2) line hmem

theorem split_map_id (lines : List String) (h : ∀ line ∈ lines, '\n' ∉ line.data) :
    (lines.map fun l => (split_on_nl l.data).map fun c => (⟨c⟩ : String)).flatten
      = lines := by
  induction lines with
  | nil => rfl
  | cons l ls ih =>
    simp only [List.map_cons, List.flatten_cons]
    rw [split_on_nl_no_nl l.data (h l (List.mem_cons_self _ _)),
      ih fun x hx => h x (List.mem_cons_of_mem _ hx)]
    rfl

theorem lines_extract (vars : List YamlVal) (nms : List String) (lines : List String)
    (hren : List.Forall₂ (fun var nm => ∃ vkvs, var = .dict vkvs ∧
       ylookup vkvs "name" = some (.str nm) ∧ '"' ∉ nm.data ∧ '\n' ∉ nm.data) vars nms)
    (hfl : List.Forall₂ (fun var line => field_line var = .ok line) vars lines) :
    lines.filterMap extract_line_name = nms := by
  induction vars generalizing nms lines with
  | nil =>
    cases hren
    cases hfl
    rfl
  | cons v vs ih =>
    cases hren with
    | cons hv hrest =>
      cases hfl with
      | cons hl hlrest =>
        obtain ⟨vkvs, rfl, hname, hq, _⟩ := hv
        obtain ⟨rest, hshape⟩ := field_line_shape vkvs _ _ hname hl
        simp only [List.filterMap_cons,
          extract_line_name_shape _ _ rest hq hshape]
        rw [ih _ _ hrest hlrest]

/-- Claim C8 (amended): for every schema that compiles successfully and
whose field names are double-quote– and newline-free strings with
newline-free rendered lines (bounds and categorical values do not inject
newlines — a name containing a newline compiles but breaks the one-line
rendering, see the counterexample), `format_schema_for_prompt` renders a
two-line header, exactly one line per field in declared order, and a
closing brace; re-extracting the field names from the rendered text
recovers exactly `get_variable_names` in the original order. -/
theorem claim_C8_roundtrip (kvs : List (String × YamlVal)) (vars : List YamlVal)
    (nms : List String) (s : YamlVal)
    (hvars : ylookup kvs "variables" = some (.list vars))
    (hload : load_yaml_schema (.dict kvs) = .ok s)
    (hren : List.Forall₂ (fun var nm => ∃ vkvs, var = .dict vkvs ∧
       ylookup vkvs "name" = some (.str nm) ∧ '"' ∉ nm.data ∧ '\n' ∉ nm.data) vars nms)
    (hnl : ∀ var ∈ vars, ∀ line, field_line var = .ok line → '\n' ∉ line.data) :
    ∃ text,
      format_schema_for_prompt (.dict kvs) = .ok text ∧
      get_variable_names (.dict kvs) = .ok (nms.map YamlVal.str) ∧
      (py_split_nl text).length = vars.length + 3 ∧
      extract_field_names text = nms := by
  have hvv : validate_vars vars 0 [] = .ok () := by
    unfold load_yaml_schema at hload
    dsimp only at hload
    by_cases hv : (ylookup kvs "version").isNone = true
    · rw [if_pos hv] at hload; simp at hload
    · rw [if_neg hv] at hload
      rw [hvars] at hload
      dsimp only at hload
      cases hval : validate_vars vars 0 [] with
      | ok u => cases u; rfl
      | error e => rw [hval] at hload; simp at hload
  obtain ⟨lines, hlok⟩ := field_lines_total vars fun var hv => by
    obtain ⟨j, seen', s', hok⟩ := validate_vars_each vars 0 [] hvv var hv
    exact validate_variable_renders var j seen' s' hok
  have hfl2 := field_lines_forall2 vars lines hlok
  have hlen := List.Forall₂.length_eq hfl2
  have hlnl : ∀ line ∈ lines, '\n' ∉ line.data := lines_no_nl vars lines hfl2 hnl
  have hsplit : py_split_nl (py_join_nl (("Esquema JSON requerido:\n\x7b" :: lines) ++ ["\x7d"]))
      = "Esquema JSON requerido:" :: "\x7b" :: (lines ++ ["\x7d"]) := by
    rw [py_split_nl_join _ (by simp)]
    simp only [List.map_cons, List.map_append, List.flatten_cons, List.flatten_append]
    rw [split_map_id lines hlnl]
    rfl
  refine ⟨py_join_nl (("Esquema JSON requerido:\n\x7b" :: lines) ++ ["\x7d"]),
    ?_, ?_, ?_, ?_⟩
  · unfold format_schema_for_prompt
    try dsimp only
    rw [hvars]
    try dsimp only
    rw [hlok]
  · unfold get_variable_names
    try dsimp only
    rw [hvars]
    simp only [Option.getD_some]
    try dsimp only
    rw [gvn_fold vars nms
      (hren.imp fun a b ⟨vkvs, hv1, hv2, _, _⟩ => ⟨vkvs, hv1, hv2⟩) []]
    rfl
  · rw [hsplit]
    simp [hlen]
  · unfold extract_field_names
    rw [hsplit]
    have ha : extract_line_name "Esquema JSON requerido:" = none := rfl
    have hb : extract_line_name "\x7b" = none := rfl
    have hc : extract_line_name "\x7d" = none := rfl
    simp only [List.filterMap_cons, List.filterMap_append, ha, hb, hc]
    rw [lines_extract vars nms lines hren hfl2]
    simp

/-- A schema whose single field name contains a newline: it compiles,
yet breaks the one-line-per-field rendering. -/
def schema_C8 : YamlVal :=
  .dict [("version", .int 1),
         ("variables", .list [.dict [("name", .str "a\nb"), ("type", .str "string")]])]

/-- Counterexample to claim C8 as stated: `schema_C8` compiles
successfully, but its one field is rendered across two lines (the
rendering splits into 5 lines, not 1 + 3), and re-extracting the field
names yields `["a"]`, not the schema's field-name list `["a\nb"]`. -/
theorem claim_C8_counterexample :
    load_yaml_schema schema_C8 = .ok schema_C8 ∧
    format_schema_for_prompt schema_C8
      = .ok "Esquema JSON requerido:\n\x7b\n  \"a\nb\": \"string\" [opcional, puede ser null]\n\x7d" ∧
    (py_split_nl "Esquema JSON requerido:\n\x7b\n  \"a\nb\": \"string\" [opcional, puede ser null]\n\x7d").length = 5 ∧
    get_variable_names schema_C8 = .ok [.str "a\nb"] ∧
    extract_field_names "Esquema JSON requerido:\n\x7b\n  \"a\nb\": \"string\" [opcional, puede ser null]\n\x7d" = ["a"] :=
  ⟨rfl, rfl, rfl, rfl, rfl⟩

/-- A two-field schema with well-behaved names. -/
def schema_C8w_vars : List YamlVal :=
  [.dict [("name", .str "nombre"), ("type", .str "string"), ("required", .bool true)],
   .dict [("name", .str "edad"), ("type", .str "integer"), ("min", .int 18), ("max", .int 80)]]

/-- The two-field schema wrapped with its version tag. -/
def schema_C8w : YamlVal :=
  .dict [("version", .int 1), ("variables", .list schema_C8w_vars)]

/-- Witness for C8 (amended) at the concrete two-field schema. -/
theorem claim_C8_roundtrip_witness :
    ∃ text,
      format_schema_for_prompt schema_C8w = .ok text ∧
      get_variable_names schema_C8w = .ok (["nombre", "edad"].map YamlVal.str) ∧
      (py_split_nl text).length = schema_C8w_vars.length + 3 ∧
      extract_field_names text = ["nombre", "edad"] :=
  claim_C8_roundtrip [("version", .int 1), ("variables", .list schema_C8w_vars)]
    schema_C8w_vars ["nombre", "edad"] schema_C8w rfl (by rfl)
    (by
      refine List.Forall₂.cons ⟨_, rfl, rfl, by decide, by decide⟩ ?_
      exact List.Forall₂.cons ⟨_, rfl, rfl, by decide, by decide⟩ List.Forall₂.nil)
    (by
      intro var hv line hl
      simp only [schema_C8w_vars, List.mem_cons, List.not_mem_nil, or_false] at hv
      rcases hv with rfl | rfl
      · rw [show field_line (.dict [("name", .str "nombre"), ("type", .str "string"),
            ("required", .bool true)]) = .ok "  \"nombre\": \"string\" [REQUERIDO]" from rfl] at hl
        obtain rfl := Except.ok.inj hl
        decide
      · rw [show field_line (.dict [("name", .str "edad"), ("type", .str "integer"),
            ("min", .int 18), ("max", .int 80)])
            = .ok "  \"edad\": number (entero) (min=18, max=80) [opcional, puede ser null]"
            from rfl] at hl
        obtain rfl := Except.ok.inj hl
        decide)

end CVA
